import Mathlib

/-!
Verification of the aws-login-client credential store, MFA validation,
auth-driver factory, AWS service operations and UI flow orchestrator.

The Go source is shallowly embedded: Go strings are Lean `String`s
(sequences of runes), Go byte lengths are computed from UTF-8 rune
sizes, Go maps are association lists with overwrite-on-insert (iteration
order of Go maps is unspecified, so all map-derived claims are stated as
membership / set claims), and fallible operations return `Option` or
`Except`.  External processes (the aws CLI, docker, 1Password) and the
terminal widget library are modelled as oracle parameters, following the
specification's component boundary.
-/

namespace AwsLogin

/-! ## Go string primitives -/

/-- Go `unicode.IsSpace`: the Unicode white-space characters
(`'\t' '\n' '\v' '\f' '\r' ' '`, U+0085, U+00A0, U+1680,
U+2000..U+200A, U+2028, U+2029, U+202F, U+205F, U+3000). -/
def goIsSpace (c : Char) : Bool :=
  let n := c.toNat
  n == 0x9 || n == 0xA || n == 0xB || n == 0xC || n == 0xD || n == 0x20 ||
  n == 0x85 || n == 0xA0 || n == 0x1680 ||
  (decide (0x2000 ≤ n) && decide (n ≤ 0x200A)) ||
  n == 0x2028 || n == 0x2029 || n == 0x202F || n == 0x205F || n == 0x3000

/-- Trim characters satisfying `p` from both ends of a rune list
(Go `strings.TrimFunc` / `strings.Trim` shape). -/
def trimBothBy (p : Char → Bool) (s : List Char) : List Char :=
  ((s.dropWhile p).reverse.dropWhile p).reverse

/-- Go `strings.TrimSpace`. -/
def goTrimSpace (s : String) : String := ⟨trimBothBy goIsSpace s.data⟩

/-- Membership test for the cutset `"[]"` of `strings.Trim(line, "[]")`. -/
def isBracketChar (c : Char) : Bool := c == '[' || c == ']'

/-- Go `strings.Trim(line, "[]")`. -/
def goTrimBrackets (s : String) : String := ⟨trimBothBy isBracketChar s.data⟩

/-- Split at the first `'='`: the two parts of
Go `strings.SplitN(line, "=", 2)` when `line` contains `'='`. -/
def breakOnEq (s : List Char) : List Char × List Char :=
  (s.takeWhile (fun c => c != '='), (s.dropWhile (fun c => c != '=')).drop 1)

/-- Go `strings.Split` on a single-character separator:
always returns at least one piece (`Split("", sep) = [""]`). -/
def splitOnChar (sep : Char) : List Char → List Char → List (List Char)
  | [], acc => [acc.reverse]
  | c :: rest, acc =>
    if c == sep then acc.reverse :: splitOnChar sep rest []
    else splitOnChar sep rest (c :: acc)

/-- Go `strings.Split(s, sep)` for a one-rune separator. -/
def goSplit (s : String) (sep : Char) : List String :=
  (splitOnChar sep s.data []).map (fun l => ⟨l⟩)

/-- UTF-8 encoded size of one rune, as counted by Go `len` on a string. -/
def runeLen (c : Char) : Nat :=
  if c.toNat < 0x80 then 1
  else if c.toNat < 0x800 then 2
  else if c.toNat < 0x10000 then 3
  else 4

/-- Go `len(s)` for a string: number of UTF-8 bytes. -/
def goLen (s : String) : Nat := (s.data.map runeLen).sum

/-- One iteration of the rune check in `ValidateMFACode`:
`true` unless `char < '0' || char > '9'`. -/
def isDigitRune (c : Char) : Bool :=
  !(decide (c.toNat < '0'.toNat) || decide ('9'.toNat < c.toNat))

/-! ## `AWSService.ValidateMFACode` (src/core/aws.go lines 140-150; the
`ManualDriver.ValidateMFACode` in the manual driver file is textually
identical). -/

/-- Embeds `AWSService.ValidateMFACode`: reject unless the byte length is
exactly 6, then reject on the first rune outside `'0'..'9'`. -/
def ValidateMFACode (code : String) : Bool :=
  if goLen code ≠ 6 then false
  else code.data.all isDigitRune

/-! ### C1 support lemmas -/

theorem runeLen_of_digit {c : Char} (h : isDigitRune c = true) : runeLen c = 1 := by
  unfold isDigitRune at h
  simp only [Bool.not_eq_true', Bool.or_eq_false_iff, decide_eq_false_iff_not,
    not_lt] at h
  unfold runeLen
  have h9 : '9'.toNat = 57 := rfl
  rw [if_pos]
  omega

theorem goLen_of_all_digits {l : List Char} (h : ∀ c ∈ l, isDigitRune c = true) :
    (l.map runeLen).sum = l.length := by
  induction l with
  | nil => rfl
  | cons c rest ih =>
    simp only [List.map_cons, List.sum_cons, List.length_cons]
    rw [runeLen_of_digit (h c (List.mem_cons_self c rest)),
      ih (fun d hd => h d (List.mem_cons_of_mem c hd))]
    omega

/-- C1: `ValidateMFACode(s)` is true iff `s` has exactly 6 characters and
every character is a decimal digit `'0'..'9'`; any other length or any
non-digit character (including the empty string) yields false. -/
theorem validateMFACode_iff_six_digits (s : String) :
    ValidateMFACode s = true ↔
      (s.data.length = 6 ∧ ∀ c ∈ s.data, isDigitRune c = true) := by
  unfold ValidateMFACode
  constructor
  · intro h
    by_cases hlen : goLen s ≠ 6
    · rw [if_pos hlen] at h; exact absurd h (by simp)
    · rw [if_neg hlen] at h
      push_neg at hlen
      have hall : ∀ c ∈ s.data, isDigitRune c = true := by
        simpa [List.all_eq_true] using h
      refine ⟨?_, hall⟩
      have := goLen_of_all_digits hall
      unfold goLen at hlen
      omega
  · rintro ⟨hlen, hall⟩
    have hby : goLen s = 6 := by
      unfold goLen
      rw [goLen_of_all_digits hall, hlen]
    rw [if_neg (by omega)]
    simpa [List.all_eq_true] using hall

/-! ## Credential store data model (src/core/types/types.go, credential
reader file).  Go zero values for string fields are `""`. -/

/-- Embeds `types.StaticCredential`. -/
structure StaticCredential where
  profileName : String := ""
  accessKey : String := ""
  accessSecret : String := ""
  accountID : String := ""
  mfaSerial : String := ""
  assumableRoleID : String := ""
  vaultKey : String := ""
deriving Repr, DecidableEq

/-- Go map write `m[k] = v`: overwrite the binding if the key exists,
otherwise add it.  Keys stay pairwise distinct. -/
def mapInsert {α : Type} (m : List (String × α)) (k : String) (v : α) :
    List (String × α) :=
  match m with
  | [] => [(k, v)]
  | (k', v') :: rest =>
    if k' = k then (k, v) :: rest else (k', v') :: mapInsert rest k v

/-- Go map read `m[k]` as an `Option` (Go yields the zero value plus
`ok = false` when the key is absent). -/
def mapLookup {α : Type} (m : List (String × α)) (k : String) : Option α :=
  match m with
  | [] => none
  | (k', v) :: rest => if k' = k then some v else mapLookup rest k

/-- Embeds `CredentialReader`: the profile map and the reverse
role-ARN-to-profile index. -/
structure CredentialReader where
  credentials : List (String × StaticCredential) := []
  roleArnToProfile : List (String × String) := []
deriving Repr, DecidableEq

/-- The save-previous-profile block of `LoadCredentialsFile` (run on each
new section header and once after the last line): store the section under
`currentProfile` and, when its `assumableRoleID` is non-empty, point the
reverse index entry for that role at this profile.  A run with
`currentProfile = ""` stores nothing. -/
def flushProfile (cr : CredentialReader) (currentProfile : String)
    (cred : StaticCredential) : CredentialReader :=
  if currentProfile = "" then cr
  else
    { credentials := mapInsert cr.credentials currentProfile cred
      roleArnToProfile :=
        if cred.assumableRoleID = "" then cr.roleArnToProfile
        else mapInsert cr.roleArnToProfile cred.assumableRoleID currentProfile }

/-- The `switch key` of the parser: assign a known key's value into the
current credential, ignore unknown keys. -/
def applyKV (cred : StaticCredential) (key value : String) : StaticCredential :=
  if key = "aws_access_key_id" then { cred with accessKey := value }
  else if key = "aws_secret_access_key" then { cred with accessSecret := value }
  else if key = "account_id" ∨ key = "aws_account_id" then
    { cred with accountID := value }
  else if key = "mfa_serial" then { cred with mfaSerial := value }
  else if key = "assumable_role_id" then { cred with assumableRoleID := value }
  else if key = "vault_key" then { cred with vaultKey := value }
  else cred

/-- Loop state of `LoadCredentialsFile`: the maps built so far plus the
open section. -/
structure ParseState where
  reader : CredentialReader
  currentProfile : String
  currentCredential : StaticCredential
deriving Repr, DecidableEq

/-- One iteration of the scanner loop of `LoadCredentialsFile`:
trim the line; skip blanks and `#` comments; on `[name]` flush the open
section and start a fresh one; on `key = value` inside a section assign
known keys, skipping values that trim to empty; skip anything else. -/
def processLine (st : ParseState) (rawLine : String) : ParseState :=
  let line := goTrimSpace rawLine
  if line = "" ∨ line.data.head? = some '#' then st
  else if line.data.head? = some '[' ∧ line.data.getLast? = some ']' then
    { reader := flushProfile st.reader st.currentProfile st.currentCredential
      currentProfile := goTrimBrackets line
      currentCredential := { profileName := goTrimBrackets line } }
  else if st.currentProfile ≠ "" ∧ line.data.any (fun c => c == '=') then
    let key := goTrimSpace ⟨(breakOnEq line.data).1⟩
    let value := goTrimSpace ⟨(breakOnEq line.data).2⟩
    if value = "" then st
    else { st with currentCredential := applyKV st.currentCredential key value }
  else st

/-- `LoadCredentialsFile` over an in-memory list of lines (the file I/O
and `bufio` line scanning are external): fold the parser loop from an
empty reader, then flush the last open section. -/
def loadCredentials (lines : List String) : CredentialReader :=
  let st := lines.foldl processLine
    { reader := {}, currentProfile := "", currentCredential := {} }
  flushProfile st.reader st.currentProfile st.currentCredential

/-- Embeds `CredentialReader.GetValidProfiles`: names of profiles whose
access key, secret and MFA serial are all non-empty. -/
def GetValidProfiles (cr : CredentialReader) : List String :=
  (cr.credentials.filter (fun p =>
    !(p.2.accessKey == "") && !(p.2.accessSecret == "") &&
      !(p.2.mfaSerial == ""))).map (fun p => p.1)

/-- Embeds `CredentialReader.GetCredential`. -/
def GetCredential (cr : CredentialReader) (profile : String) :
    Option StaticCredential :=
  mapLookup cr.credentials profile

/-- Embeds `CredentialReader.GetAssumableRoles`: the non-empty
`assumableRoleID`s of every profile other than `profile` itself. -/
def GetAssumableRoles (cr : CredentialReader) (profile : String) : List String :=
  (cr.credentials.filter (fun p =>
    !(p.1 == profile) && !(p.2.assumableRoleID == ""))).map
    (fun p => p.2.assumableRoleID)

/-- Embeds `CredentialReader.GetProfileByRoleArn`: reverse index read,
Go's zero value `""` when the role is unknown. -/
def GetProfileByRoleArn (cr : CredentialReader) (roleArn : String) : String :=
  (mapLookup cr.roleArnToProfile roleArn).getD ""

/-! ### Association-map lemmas -/

theorem keys_mapInsert {α : Type} (m : List (String × α)) (k : String) (v : α) :
    (mapInsert m k v).map Prod.fst =
      if k ∈ m.map Prod.fst then m.map Prod.fst else m.map Prod.fst ++ [k] := by
  induction m with
  | nil => simp [mapInsert]
  | cons p rest ih =>
    obtain ⟨k', v'⟩ := p
    by_cases hk : k' = k
    · subst hk
      simp [mapInsert]
    · have hne : ¬k = k' := fun h => hk h.symm
      by_cases hmem : k ∈ rest.map Prod.fst
      · simp [mapInsert, if_neg hk, ih, hmem, hne]
      · simp [mapInsert, if_neg hk, ih, hmem, hne]

theorem nodup_keys_mapInsert {α : Type} {m : List (String × α)}
    (h : (m.map Prod.fst).Nodup) (k : String) (v : α) :
    ((mapInsert m k v).map Prod.fst).Nodup := by
  rw [keys_mapInsert]
  by_cases hk : k ∈ m.map Prod.fst
  · simpa [hk] using h
  · simp only [hk, if_false]
    simp [List.nodup_append, h, hk]

theorem mapLookup_eq_some_iff {α : Type} {m : List (String × α)}
    (h : (m.map Prod.fst).Nodup) {k : String} {v : α} :
    mapLookup m k = some v ↔ (k, v) ∈ m := by
  induction m with
  | nil => simp [mapLookup]
  | cons p rest ih =>
    obtain ⟨k', v'⟩ := p
    simp only [List.map_cons, List.nodup_cons] at h
    unfold mapLookup
    by_cases hk : k' = k
    · subst hk
      rw [if_pos rfl]
      simp only [List.mem_cons, Option.some_inj, Prod.mk.injEq]
      constructor
      · rintro rfl; simp
      · rintro (⟨-, rfl⟩ | hmem)
        · rfl
        · exact absurd (List.mem_map_of_mem Prod.fst hmem) h.1
    · rw [if_neg hk, ih h.2]
      simp only [List.mem_cons, Prod.mk.injEq]
      constructor
      · exact Or.inr
      · rintro (⟨rfl, -⟩ | hmem)
        · exact absurd rfl hk
        · exact hmem

/-! ### Well-formedness: both maps built by the loader have pairwise
distinct keys (they are Go maps). -/

def readerWF (cr : CredentialReader) : Prop :=
  (cr.credentials.map Prod.fst).Nodup ∧ (cr.roleArnToProfile.map Prod.fst).Nodup

theorem flushProfile_wf {cr : CredentialReader} (h : readerWF cr)
    (p : String) (c : StaticCredential) : readerWF (flushProfile cr p c) := by
  unfold flushProfile
  by_cases hp : p = ""
  · simpa [hp] using h
  · refine ⟨?_, ?_⟩
    · simpa [hp] using nodup_keys_mapInsert h.1 p c
    · by_cases hr : c.assumableRoleID = ""
      · simpa [hp, hr] using h.2
      · simpa [hp, hr] using nodup_keys_mapInsert h.2 c.assumableRoleID p

theorem processLine_wf {st : ParseState} (h : readerWF st.reader)
    (l : String) : readerWF (processLine st l).reader := by
  simp only [processLine]
  split_ifs <;> first | exact h | exact flushProfile_wf h _ _

theorem foldl_processLine_wf (lines : List String) :
    ∀ st : ParseState, readerWF st.reader →
      readerWF (lines.foldl processLine st).reader := by
  induction lines with
  | nil => intro st h; exact h
  | cons l rest ih =>
    intro st h
    exact ih (processLine st l) (processLine_wf h l)

theorem loadCredentials_wf (lines : List String) :
    readerWF (loadCredentials lines) := by
  unfold loadCredentials
  exact flushProfile_wf
    (foldl_processLine_wf lines _ (by constructor <;> simp)) _ _

/-! ### C2 -/

/-- C2: after loading a credential source, `GetValidProfiles` returns
exactly the set of profile names whose stored credential has non-empty
access key, non-empty secret and non-empty MFA serial; a profile missing
any of the three is excluded. -/
theorem getValidProfiles_mem (lines : List String) (p : String) :
    p ∈ GetValidProfiles (loadCredentials lines) ↔
      ∃ c, GetCredential (loadCredentials lines) p = some c ∧
        c.accessKey ≠ "" ∧ c.accessSecret ≠ "" ∧ c.mfaSerial ≠ "" := by
  have hwf := loadCredentials_wf lines
  unfold GetValidProfiles GetCredential
  constructor
  · intro h
    obtain ⟨⟨q, c⟩, hmem, rfl⟩ := List.mem_map.mp h
    obtain ⟨hin, hflt⟩ := List.mem_filter.mp hmem
    refine ⟨c, (mapLookup_eq_some_iff hwf.1).mpr hin, ?_, ?_, ?_⟩ <;>
      simp_all
  · rintro ⟨c, hlk, h1, h2, h3⟩
    refine List.mem_map.mpr ⟨(p, c), List.mem_filter.mpr
      ⟨(mapLookup_eq_some_iff hwf.1).mp hlk, ?_⟩, rfl⟩
    simp_all

/-! ### C3 -/

/-- C3: `GetAssumableRoles p` returns exactly the non-empty
assumable-role IDs of the profiles in the store other than `p` itself,
and when `p` is not a profile in the store every non-empty role ID in the
store is returned. -/
theorem getAssumableRoles_mem (lines : List String) (p r : String) :
    (r ∈ GetAssumableRoles (loadCredentials lines) p ↔
      ∃ q c, GetCredential (loadCredentials lines) q = some c ∧ q ≠ p ∧
        c.assumableRoleID = r ∧ r ≠ "") ∧
    (GetCredential (loadCredentials lines) p = none →
      (r ∈ GetAssumableRoles (loadCredentials lines) p ↔
        ∃ q c, GetCredential (loadCredentials lines) q = some c ∧
          c.assumableRoleID = r ∧ r ≠ "")) := by
  have hwf := loadCredentials_wf lines
  have hmain : r ∈ GetAssumableRoles (loadCredentials lines) p ↔
      ∃ q c, GetCredential (loadCredentials lines) q = some c ∧ q ≠ p ∧
        c.assumableRoleID = r ∧ r ≠ "" := by
    unfold GetAssumableRoles GetCredential
    constructor
    · intro h
      obtain ⟨⟨q, c⟩, hmem, hr⟩ := List.mem_map.mp h
      obtain ⟨hin, hflt⟩ := List.mem_filter.mp hmem
      refine ⟨q, c, (mapLookup_eq_some_iff hwf.1).mpr hin, ?_, hr, ?_⟩ <;>
        simp_all
    · rintro ⟨q, c, hlk, hqp, rfl, hr⟩
      refine List.mem_map.mpr ⟨(q, c), List.mem_filter.mpr
        ⟨(mapLookup_eq_some_iff hwf.1).mp hlk, ?_⟩, rfl⟩
      simp_all
  refine ⟨hmain, fun hnone => ?_⟩
  rw [hmain]
  constructor
  · rintro ⟨q, c, hlk, _, hrole, hr⟩
    exact ⟨q, c, hlk, hrole, hr⟩
  · rintro ⟨q, c, hlk, hrole, hr⟩
    refine ⟨q, c, hlk, ?_, hrole, hr⟩
    rintro rfl
    rw [hlk] at hnone
    exact Option.noConfusion hnone

/-- Witness for C3 at a concrete store: `prd`, `int`, `staging` own
roles A, B, C and `dev` owns none; the absent profile `nonexistent` sees
role A (owned by `prd`). -/
theorem getAssumableRoles_mem_witness :
    "roleA" ∈ GetAssumableRoles (loadCredentials
        ["[prd]", "assumable_role_id = roleA",
         "[int]", "assumable_role_id = roleB",
         "[staging]", "assumable_role_id = roleC", "[dev]"]) "nonexistent" := by
  rw [(getAssumableRoles_mem
      ["[prd]", "assumable_role_id = roleA",
       "[int]", "assumable_role_id = roleB",
       "[staging]", "assumable_role_id = roleC", "[dev]"] "nonexistent"
        "roleA").2 (by decide)]
  exact ⟨"prd", { profileName := "prd", assumableRoleID := "roleA" },
    by decide, by decide, by decide⟩

/-! ### C4: the reverse role index

To speak about "the profiles flushed with a role ID" we record the trace
of section flushes performed by the parser loop and prove that
`loadCredentials` equals folding `flushProfile` over that trace. -/

/-- Append a flush event (a flush with empty profile name stores
nothing, so it is not recorded). -/
def traceFlush (fs : List (String × StaticCredential)) (p : String)
    (c : StaticCredential) : List (String × StaticCredential) :=
  if p = "" then fs else fs ++ [(p, c)]

/-- Loop state of the parser instrumented to record flush events instead
of building the maps. -/
structure TraceState where
  flushes : List (String × StaticCredential)
  currentProfile : String
  currentCredential : StaticCredential
deriving Repr, DecidableEq

/-- `processLine` with the flush trace in place of the reader. -/
def traceLine (st : TraceState) (rawLine : String) : TraceState :=
  let line := goTrimSpace rawLine
  if line = "" ∨ line.data.head? = some '#' then st
  else if line.data.head? = some '[' ∧ line.data.getLast? = some ']' then
    { flushes := traceFlush st.flushes st.currentProfile st.currentCredential
      currentProfile := goTrimBrackets line
      currentCredential := { profileName := goTrimBrackets line } }
  else if st.currentProfile ≠ "" ∧ line.data.any (fun c => c == '=') then
    let key := goTrimSpace ⟨(breakOnEq line.data).1⟩
    let value := goTrimSpace ⟨(breakOnEq line.data).2⟩
    if value = "" then st
    else { st with currentCredential := applyKV st.currentCredential key value }
  else st

/-- The ordered (profile, credential) flush events of a full parse. -/
def sectionFlushes (lines : List String) : List (String × StaticCredential) :=
  let st := lines.foldl traceLine
    { flushes := [], currentProfile := "", currentCredential := {} }
  traceFlush st.flushes st.currentProfile st.currentCredential

/-- Replay flush events on top of a reader. -/
def buildFrom (cr : CredentialReader) (fs : List (String × StaticCredential)) :
    CredentialReader :=
  fs.foldl (fun cr' pc => flushProfile cr' pc.1 pc.2) cr

theorem buildFrom_traceFlush (cr : CredentialReader)
    (fs : List (String × StaticCredential)) (p : String) (c : StaticCredential) :
    buildFrom cr (traceFlush fs p c) = flushProfile (buildFrom cr fs) p c := by
  unfold traceFlush
  by_cases hp : p = ""
  · simp [hp, flushProfile]
  · simp only [hp, if_false, buildFrom, List.foldl_append, List.foldl_cons,
      List.foldl_nil]

theorem processLine_traceLine (cr : CredentialReader)
    (fs : List (String × StaticCredential)) (cur : String)
    (cred : StaticCredential) (l : String) :
    processLine ⟨buildFrom cr fs, cur, cred⟩ l =
      ⟨buildFrom cr (traceLine ⟨fs, cur, cred⟩ l).flushes,
        (traceLine ⟨fs, cur, cred⟩ l).currentProfile,
        (traceLine ⟨fs, cur, cred⟩ l).currentCredential⟩ := by
  simp only [processLine, traceLine]
  split_ifs with h1 h2 h3 h4 <;>
    simp [buildFrom_traceFlush]

theorem foldl_processLine_traceLine (lines : List String)
    (cr : CredentialReader) :
    ∀ (fs : List (String × StaticCredential)) (cur : String)
      (cred : StaticCredential),
      lines.foldl processLine ⟨buildFrom cr fs, cur, cred⟩ =
        ⟨buildFrom cr (lines.foldl traceLine ⟨fs, cur, cred⟩).flushes,
          (lines.foldl traceLine ⟨fs, cur, cred⟩).currentProfile,
          (lines.foldl traceLine ⟨fs, cur, cred⟩).currentCredential⟩ := by
  induction lines with
  | nil => intro fs cur cred; rfl
  | cons l rest ih =>
    intro fs cur cred
    rw [List.foldl_cons, List.foldl_cons, processLine_traceLine]
    exact ih (traceLine ⟨fs, cur, cred⟩ l).flushes
      (traceLine ⟨fs, cur, cred⟩ l).currentProfile
      (traceLine ⟨fs, cur, cred⟩ l).currentCredential

/-- The loader is the replay of its own flush trace. -/
theorem loadCredentials_eq_buildFrom (lines : List String) :
    loadCredentials lines = buildFrom {} (sectionFlushes lines) := by
  have h := foldl_processLine_traceLine lines {} [] "" {}
  show flushProfile
      (lines.foldl processLine (⟨buildFrom {} [], "", {}⟩ : ParseState)).reader
      (lines.foldl processLine (⟨buildFrom {} [], "", {}⟩ : ParseState)).currentProfile
      (lines.foldl processLine (⟨buildFrom {} [], "", {}⟩ : ParseState)).currentCredential =
    buildFrom {} (sectionFlushes lines)
  rw [h]
  exact (buildFrom_traceFlush {}
    (lines.foldl traceLine ⟨[], "", {}⟩).flushes
    (lines.foldl traceLine ⟨[], "", {}⟩).currentProfile
    (lines.foldl traceLine ⟨[], "", {}⟩).currentCredential).symm

/-- The profiles that were flushed claiming role ID `r`, in flush order
(flushes with empty profile name store nothing and are excluded). -/
def roleOwners (fs : List (String × StaticCredential)) (r : String) :
    List String :=
  (fs.filter (fun pc => !(pc.1 == "") && pc.2.assumableRoleID == r)).map
    (fun pc => pc.1)

theorem mapLookup_mapInsert_self {α : Type} (m : List (String × α))
    (k : String) (v : α) : mapLookup (mapInsert m k v) k = some v := by
  induction m with
  | nil => simp [mapInsert, mapLookup]
  | cons p rest ih =>
    obtain ⟨k', v'⟩ := p
    by_cases hk : k' = k
    · simp [mapInsert, mapLookup, hk]
    · simp [mapInsert, mapLookup, hk, ih]

theorem mapLookup_mapInsert_ne {α : Type} (m : List (String × α))
    {k k' : String} (h : k' ≠ k) (v : α) :
    mapLookup (mapInsert m k' v) k = mapLookup m k := by
  induction m with
  | nil => simp [mapInsert, mapLookup, h]
  | cons p rest ih =>
    obtain ⟨k'', v''⟩ := p
    by_cases hk : k'' = k'
    · subst hk
      simp [mapInsert, mapLookup, h]
    · by_cases hk2 : k'' = k
      · simp [mapInsert, mapLookup, hk, hk2, h.symm]
      · simp [mapInsert, mapLookup, hk, hk2, ih]

theorem buildFrom_role_lookup (r : String) (hr : r ≠ "")
    (fs : List (String × StaticCredential)) :
    ∀ cr : CredentialReader,
      mapLookup (buildFrom cr fs).roleArnToProfile r =
        match (roleOwners fs r).getLast? with
        | some p => some p
        | none => mapLookup cr.roleArnToProfile r := by
  induction fs with
  | nil => intro cr; simp [buildFrom, roleOwners]
  | cons pc rest ih =>
    intro cr
    have hstep : buildFrom cr (pc :: rest) =
        buildFrom (flushProfile cr pc.1 pc.2) rest := rfl
    rw [hstep, ih]
    by_cases hmatch : (!(pc.1 == "") && pc.2.assumableRoleID == r) = true
    · have howners : roleOwners (pc :: rest) r = pc.1 :: roleOwners rest r := by
        simp [roleOwners, List.filter_cons, hmatch]
      rw [howners]
      obtain ⟨hp, hrole⟩ := Bool.and_eq_true_iff.mp hmatch
      have hp' : pc.1 ≠ "" := by simpa using hp
      have hrole' : pc.2.assumableRoleID = r := by simpa using hrole
      have hflush : mapLookup (flushProfile cr pc.1 pc.2).roleArnToProfile r =
          some pc.1 := by
        unfold flushProfile
        rw [if_neg hp']
        simp only [hrole', hr]
        simpa using mapLookup_mapInsert_self cr.roleArnToProfile r pc.1
      cases hlast : (roleOwners rest r).getLast? with
      | none =>
        simp only [List.getLast?_cons, hlast]
        simpa using hflush
      | some q =>
        simp [List.getLast?_cons, hlast]
    · have howners : roleOwners (pc :: rest) r = roleOwners rest r := by
        simp [roleOwners, List.filter_cons, hmatch]
      rw [howners]
      have hflush : mapLookup (flushProfile cr pc.1 pc.2).roleArnToProfile r =
          mapLookup cr.roleArnToProfile r := by
        unfold flushProfile
        by_cases hp : pc.1 = ""
        · rw [if_pos hp]
        · rw [if_neg hp]
          by_cases hrole : pc.2.assumableRoleID = ""
          · simp [hrole]
          · simp only [hrole, if_neg]
            have hne : pc.2.assumableRoleID ≠ r := by
              intro he
              exact hmatch (by simp [hp, he])
            exact mapLookup_mapInsert_ne _ hne _
      rw [hflush]

theorem buildFrom_role_lookup_empty
    (fs : List (String × StaticCredential)) :
    ∀ cr : CredentialReader,
      mapLookup (buildFrom cr fs).roleArnToProfile "" =
        mapLookup cr.roleArnToProfile "" := by
  induction fs with
  | nil => intro cr; rfl
  | cons pc rest ih =>
    intro cr
    have hstep : buildFrom cr (pc :: rest) =
        buildFrom (flushProfile cr pc.1 pc.2) rest := rfl
    rw [hstep, ih]
    unfold flushProfile
    by_cases hp : pc.1 = ""
    · rw [if_pos hp]
    · rw [if_neg hp]
      by_cases hrole : pc.2.assumableRoleID = ""
      · simp [hrole]
      · simp only [hrole, if_neg]
        exact mapLookup_mapInsert_ne _ hrole _

/-- Counterexample to C4 as stated: in the credential source
`["[a]", "assumable_role_id = r", "[a]"]` the profile `a` is first
flushed owning role `r` and then re-opened and re-flushed without any
role, so its stored credential has an empty `assumableRoleID` — yet it
still appears as the value of the reverse index at `r`.  This refutes
"a profile with no assumable-role ID never appears as a value in the
reverse index". -/
theorem getProfileByRoleArn_counterexample :
    GetProfileByRoleArn
        (loadCredentials ["[a]", "assumable_role_id = r", "[a]"]) "r" = "a" ∧
      GetCredential
          (loadCredentials ["[a]", "assumable_role_id = r", "[a]"]) "a" =
        some { profileName := "a" } := by
  exact ⟨by decide, by decide⟩

/-- C4 amended: `GetProfileByRoleArn` is the reverse of the flush-time
role-ownership relation: for a non-empty role ID `r` it returns the last
profile flushed claiming `r` (empty string when no flush claimed `r`),
and it returns the empty string on the empty string; moreover any
profile it returns was flushed with `assumableRoleID = r` — so a profile
none of whose flushed sections carried a non-empty role ID never appears
as a value in the reverse index.  (The unamended claim's stronger clause,
keyed to the final stored credential instead of the flush events, fails:
see the counterexample.) -/
theorem getProfileByRoleArn_reverse (lines : List String) (r : String) :
    (GetProfileByRoleArn (loadCredentials lines) r =
      if r = "" then ""
      else ((roleOwners (sectionFlushes lines) r).getLast?).getD "") ∧
    (∀ p, p ≠ "" → GetProfileByRoleArn (loadCredentials lines) r = p →
      ∃ c, (p, c) ∈ sectionFlushes lines ∧ c.assumableRoleID = r ∧ r ≠ "") := by
  have heq : GetProfileByRoleArn (loadCredentials lines) r =
      if r = "" then ""
      else ((roleOwners (sectionFlushes lines) r).getLast?).getD "" := by
    unfold GetProfileByRoleArn
    rw [loadCredentials_eq_buildFrom]
    by_cases hr : r = ""
    · subst hr
      rw [if_pos rfl, buildFrom_role_lookup_empty]
      rfl
    · rw [if_neg hr, buildFrom_role_lookup r hr]
      cases hlast : (roleOwners (sectionFlushes lines) r).getLast? with
      | none => rfl
      | some p => rfl
  refine ⟨heq, fun p hp hval => ?_⟩
  rw [heq] at hval
  by_cases hr : r = ""
  · rw [if_pos hr] at hval
    exact absurd hval.symm hp
  · rw [if_neg hr] at hval
    cases hlast : (roleOwners (sectionFlushes lines) r).getLast? with
    | none => rw [hlast] at hval; exact absurd hval.symm hp
    | some q =>
      rw [hlast] at hval
      simp only [Option.getD_some] at hval
      have hq : q ∈ roleOwners (sectionFlushes lines) r := by
        obtain ⟨hne, hlq⟩ := List.mem_getLast?_eq_getLast
          (show q ∈ (roleOwners (sectionFlushes lines) r).getLast? by
            simpa [Option.mem_def] using hlast)
        rw [hlq]
        exact List.getLast_mem hne
      rw [← hval]
      obtain ⟨pc, hmem, hfst⟩ := List.mem_map.mp hq
      obtain ⟨hin, hflt⟩ := List.mem_filter.mp hmem
      obtain ⟨-, hrole⟩ := Bool.and_eq_true_iff.mp hflt
      refine ⟨pc.2, ?_, by simpa using hrole, hr⟩
      rw [← hfst]
      simpa using hin

/-- Witness for C4 amended at a concrete store: with `prd` owning
`roleA`, the reverse lookup at `roleA` returns `prd`, and lookups at an
unknown role and at the empty string return the empty string. -/
theorem getProfileByRoleArn_reverse_witness :
    GetProfileByRoleArn
        (loadCredentials ["[prd]", "assumable_role_id = roleA"]) "roleA" =
      "prd" ∧
    GetProfileByRoleArn
        (loadCredentials ["[prd]", "assumable_role_id = roleA"]) "ghost" =
      "" ∧
    GetProfileByRoleArn
        (loadCredentials ["[prd]", "assumable_role_id = roleA"]) "" = "" := by
  refine ⟨?_, ?_, ?_⟩
  · rw [(getProfileByRoleArn_reverse
      ["[prd]", "assumable_role_id = roleA"] "roleA").1]
    decide
  · rw [(getProfileByRoleArn_reverse
      ["[prd]", "assumable_role_id = roleA"] "ghost").1]
    decide
  · rw [(getProfileByRoleArn_reverse
      ["[prd]", "assumable_role_id = roleA"] "").1]
    rfl

/-! ## Auth driver factory (src/core/auth_drivers/factory.go) -/

/-- Embeds `AuthDriverName` (`iota` constants; the Go zero value is
`AuthDriverManual`). -/
inductive AuthDriverName
  | manual
  | onePassword
  | unknown
deriving DecidableEq, Repr

/-- Go `strings.ToLower` on one rune, restricted to the ASCII range; the
Unicode simple-case table beyond ASCII is locale data external to this
program and is not modelled (the recognised driver names are ASCII). -/
def goToLowerChar (c : Char) : Char :=
  if 'A' ≤ c ∧ c ≤ 'Z' then Char.ofNat (c.toNat + 32) else c

/-- Go `strings.ToLower`. -/
def goToLower (s : String) : String := ⟨s.data.map goToLowerChar⟩

/-- Embeds `ParseAuthDriver`: trim and lowercase, accept `manual` and
`1password`, otherwise return the Manual driver together with an error
naming the offending value and the valid options.  The Go
`(AuthDriverName, error)` pair is a Lean pair with an `Option` error. -/
def ParseAuthDriver (s : String) : AuthDriverName × Option String :=
  let t := goToLower (goTrimSpace s)
  if t = "manual" then (.manual, none)
  else if t = "1password" then (.onePassword, none)
  else (.manual, some ("invalid auth driver \x27" ++ s ++
    "\x27, valid options are: manual, 1password"))

/-- Embeds `GetAuthDriverFromEnv`, taking the value of the
`AWS_LOGIN_AUTH_DRIVER` environment variable as input (Go `os.Getenv`
yields `""` when unset). -/
def GetAuthDriverFromEnv (envValue : String) : AuthDriverName × Option String :=
  if envValue = "" then (.manual, none)
  else
    match ParseAuthDriver envValue with
    | (_, some e) =>
      (.manual, some ("AWS_LOGIN_AUTH_DRIVER environment variable error: " ++ e))
    | (driver, none) => (driver, none)

/-- C6: driver selection resolved from the explicit configuration value
defaults to Manual when the value is absent or invalid, and an invalid
explicit value fails with a configuration error that names the offending
value and lists the valid options (manual, 1password).  "Invalid" is
exactly: the trimmed, lowered value is neither `manual` nor
`1password`. -/
theorem parseAuthDriver_defaults_and_error (s : String) :
    (GetAuthDriverFromEnv "" = (.manual, none)) ∧
    ((ParseAuthDriver s).2.isSome = true ↔
      goToLower (goTrimSpace s) ≠ "manual" ∧
        goToLower (goTrimSpace s) ≠ "1password") ∧
    ((ParseAuthDriver s).2.isSome = true →
      (ParseAuthDriver s).1 = .manual ∧ (GetAuthDriverFromEnv s).1 = .manual) ∧
    (∀ e, (ParseAuthDriver s).2 = some e →
      List.IsInfix s.data e.data ∧
        List.IsInfix "manual, 1password".data e.data) := by
  refine ⟨rfl, ?_, ?_, ?_⟩
  · unfold ParseAuthDriver
    by_cases h1 : goToLower (goTrimSpace s) = "manual"
    · simp [h1]
    · by_cases h2 : goToLower (goTrimSpace s) = "1password"
      · simp [h1, h2]
      · simp [h1, h2]
  · intro hsome
    by_cases h1 : goToLower (goTrimSpace s) = "manual"
    · simp [ParseAuthDriver, h1] at hsome
    · by_cases h2 : goToLower (goTrimSpace s) = "1password"
      · simp [ParseAuthDriver, h1, h2] at hsome
      · constructor
        · simp [ParseAuthDriver, h1, h2]
        · unfold GetAuthDriverFromEnv
          by_cases hs : s = ""
          · simp [hs]
          · simp [hs, ParseAuthDriver, h1, h2]
  · intro e he
    unfold ParseAuthDriver at he
    by_cases h1 : goToLower (goTrimSpace s) = "manual"
    · simp [h1] at he
    · by_cases h2 : goToLower (goTrimSpace s) = "1password"
      · simp [h1, h2] at he
      · simp only [h1, h2, if_false, Option.some_inj] at he
        subst he
        constructor
        · exact ⟨"invalid auth driver \x27".data,
            "\x27, valid options are: manual, 1password".data, by
              simp [String.data_append]⟩
        · refine ⟨("invalid auth driver \x27" ++ s ++ "\x27, valid options are: ").data,
            [], ?_⟩
          simp [String.data_append]

/-- Witness for C6: `op` is an invalid driver value; parsing it yields
the Manual default plus an error that contains the offending value and
the option list. -/
theorem parseAuthDriver_defaults_and_error_witness :
    (ParseAuthDriver "op").1 = .manual ∧ (GetAuthDriverFromEnv "op").1 = .manual := by
  exact (parseAuthDriver_defaults_and_error "op").2.2.1 (by decide)

/-! ## AWS service (src/core/aws.go)

Process-level effects — environment variables, the `/tmp/aws-session.json`
artifact — are explicit state; the external `aws`/`docker` processes are
oracles supplying each command's outcome. -/

/-- Embeds `types.Credentials` (temporary session credentials). -/
structure Credentials where
  accessKeyId : String := ""
  secretAccessKey : String := ""
  sessionToken : String := ""
  expiration : String := ""
  profile : String := ""
deriving Repr, DecidableEq

/-- Process-visible state mutated by the service: environment variables
and the session handoff artifact. -/
structure OSState where
  env : List (String × String) := []
  sessionFile : Option Credentials := none
deriving Repr, DecidableEq

/-- Go `os.Setenv`. -/
def setenv (os : OSState) (k v : String) : OSState :=
  { os with env := mapInsert os.env k v }

/-- Go `os.Getenv` (empty string when unset). -/
def getenv (os : OSState) (k : String) : String :=
  (mapLookup os.env k).getD ""

/-- External calls issued by the service, for stating which exchanges a
code path attempts. -/
inductive ExtCall
  | stsGetSessionToken
  | stsAssumeRole
  | ecrGetPassword
  | dockerLogin
deriving DecidableEq, Repr

/-- Outcomes of the external processes (`aws sts get-session-token`,
`aws sts assume-role` — each combined with its JSON parse —, the
filesystem write, `aws ecr get-login-password`, `docker login`). -/
structure ProcEnv where
  stsOutcome : Except String Credentials
  assumeOutcome : Except String Credentials
  writeErr : Option String
  ecrPasswordOutcome : Except String String
  dockerLoginOk : Bool
deriving Repr

/-- Embeds `AWSService.writeToJSONFile`: marshal the token and write the
artifact; the filesystem outcome is the `writeErr` oracle. -/
def writeToJSONFile (writeErr : Option String) (os : OSState)
    (credentials : Credentials) : OSState × Except String String :=
  match writeErr with
  | some e => (os, .error ("failed to write JSON file: " ++ e))
  | none => ({ os with sessionFile := some credentials },
      .ok "/tmp/aws-session.json")

/-- Embeds `AWSService.persistCredentials`: set the four process
environment variables, then write the handoff artifact. -/
def persistCredentials (writeErr : Option String) (os : OSState)
    (credentials : Credentials) (profile : String) :
    OSState × Except String Bool :=
  let os1 := setenv os "AWS_ACCESS_KEY_ID" credentials.accessKeyId
  let os2 := setenv os1 "AWS_SECRET_ACCESS_KEY" credentials.secretAccessKey
  let os3 := setenv os2 "AWS_SESSION_TOKEN" credentials.sessionToken
  let os4 := setenv os3 "AWS_PROFILE" profile
  let token : Credentials :=
    { accessKeyId := credentials.accessKeyId
      secretAccessKey := credentials.secretAccessKey
      sessionToken := credentials.sessionToken
      profile := profile
      expiration := credentials.expiration }
  match writeToJSONFile writeErr os4 token with
  | (os5, .error e) =>
    (os5, .error ("failed to write credentials to JSON file: " ++ e))
  | (os5, .ok _) => (os5, .ok true)

/-- Embeds `AWSService.GetCredentials` (the credential reader is always
initialized in this embedding, so only the profile-not-found failure
remains). -/
def serviceGetCredentials (cr : CredentialReader) (profile : String) :
    Except String StaticCredential :=
  match GetCredential cr profile with
  | none => .error ("profile \x27" ++ profile ++ "\x27 not found in credentials")
  | some c => .ok c

/-- Embeds `AWSService.GetMFASerial`. -/
def GetMFASerial (cr : CredentialReader) (profile : String) :
    Except String String :=
  match serviceGetCredentials cr profile with
  | .error e => .error e
  | .ok credentials =>
    if credentials.mfaSerial = "" then
      .error ("MFA serial not configured for profile \x27" ++ profile ++ "\x27")
    else .ok credentials.mfaSerial

/-- Embeds `AWSService.GetSessionToken`: resolve the MFA serial (failing
before any external call), run the `sts get-session-token` exchange, and
persist the resulting credentials.  The third component lists the
external calls attempted. -/
def GetSessionToken (penv : ProcEnv) (cr : CredentialReader) (os : OSState)
    (profile mfaCode : String) : OSState × Except String Bool × List ExtCall :=
  match GetMFASerial cr profile with
  | .error e => (os, .error e, [])
  | .ok _ =>
    match penv.stsOutcome with
    | .error w =>
      (os, .error ("failed to get AWS session token: " ++ w),
        [.stsGetSessionToken])
    | .ok creds =>
      let pr := persistCredentials penv.writeErr os creds profile
      (pr.1, pr.2, [.stsGetSessionToken])

/-- Embeds `AWSService.AssumeRole`: run the `sts assume-role` exchange
and persist the resulting credentials under `profile`. -/
def AssumeRole (penv : ProcEnv) (os : OSState) (profile roleArn : String) :
    OSState × Except String Bool × List ExtCall :=
  match penv.assumeOutcome with
  | .error w =>
    (os, .error ("failed to assume role " ++ roleArn ++ ": " ++ w),
      [.stsAssumeRole])
  | .ok creds =>
    let pr := persistCredentials penv.writeErr os creds profile
    (pr.1, pr.2, [.stsAssumeRole])

/-- Embeds `AWSService.LoginToECR`.  The account-ID extraction indexes
element 4 of `strings.Split(assumableRoleID, ":")`; in Go that indexing
panics when fewer than five parts exist, so the total embedding returns
`none` for that out-of-range read and `some` of the Go result
otherwise. -/
def LoginToECR (penv : ProcEnv) (cr : CredentialReader) (os : OSState)
    (attemptECRLogin : Bool) : Option (Except String Unit × List ExtCall) :=
  if !attemptECRLogin then
    some (.error "attempt to login to ECR is disabled", [])
  else
    match serviceGetCredentials cr (getenv os "AWS_PROFILE") with
    | .error e => some (.error ("failed to get credentials: " ++ e), [])
    | .ok credentials =>
      match penv.ecrPasswordOutcome with
      | .error w =>
        some (.error ("failed to get ECR login password: " ++ w),
          [.ecrGetPassword])
      | .ok _ =>
        let accountID? : Option String :=
          if credentials.accountID ≠ "" then some credentials.accountID
          else (goSplit credentials.assumableRoleID ':')[4]?
        match accountID? with
        | none => none
        | some _ =>
          if penv.dockerLoginOk then
            some (.ok (), [.ecrGetPassword, .dockerLogin])
          else
            some (.error "failed to login to ECR: exit error",
              [.ecrGetPassword, .dockerLogin])

/-! ### C10 -/

/-- C10: credential publishing is not atomic on error —
`persistCredentials` sets the four process environment variables before
attempting the artifact write, so when the write fails the function
returns an error while the process environment already holds the new
credentials (and the artifact is unchanged). -/
theorem persistCredentials_env_set_despite_write_failure (e : String)
    (os : OSState) (c : Credentials) (profile : String) :
    (∃ msg, (persistCredentials (some e) os c profile).2 = .error msg) ∧
    getenv (persistCredentials (some e) os c profile).1 "AWS_ACCESS_KEY_ID" =
      c.accessKeyId ∧
    getenv (persistCredentials (some e) os c profile).1 "AWS_SECRET_ACCESS_KEY" =
      c.secretAccessKey ∧
    getenv (persistCredentials (some e) os c profile).1 "AWS_SESSION_TOKEN" =
      c.sessionToken ∧
    getenv (persistCredentials (some e) os c profile).1 "AWS_PROFILE" =
      profile ∧
    (persistCredentials (some e) os c profile).1.sessionFile =
      os.sessionFile := by
  unfold persistCredentials writeToJSONFile
  refine ⟨⟨_, rfl⟩, ?_, ?_, ?_, ?_, rfl⟩ <;>
  · simp only [getenv, setenv]
    repeat rw [mapLookup_mapInsert_ne _ (by decide) _]
    try rw [mapLookup_mapInsert_self]
    rfl

/-! ### C9 -/

/-- C9: when the active profile's credential has an empty `accountID`
and its `assumableRoleID` splits into fewer than five colon-separated
fields, `LoginToECR`'s account-ID extraction indexes out of range: the
Go code panics, and the total embedding returns `none` — the error
branch of the `Option`-returning index is reachable. -/
theorem loginToECR_account_index_out_of_range (penv : ProcEnv)
    (cr : CredentialReader) (os : OSState) (c : StaticCredential) (pw : String)
    (hc : GetCredential cr (getenv os "AWS_PROFILE") = some c)
    (hacct : c.accountID = "")
    (hshort : (goSplit c.assumableRoleID ':').length < 5)
    (hpw : penv.ecrPasswordOutcome = .ok pw) :
    LoginToECR penv cr os true = none := by
  unfold LoginToECR serviceGetCredentials
  rw [hc, hpw]
  simp only [Bool.not_true, Bool.false_eq_true, if_false, hacct,
    ne_eq, not_true_eq_false, if_false]
  rw [List.getElem?_eq_none (by omega)]

/-- Witness for C9: a profile with neither an account ID nor an
assumable-role ARN (the split of `""` has one field) drives `LoginToECR`
into the out-of-range branch. -/
theorem loginToECR_account_index_out_of_range_witness :
    LoginToECR
      { stsOutcome := .error "", assumeOutcome := .error "", writeErr := none,
        ecrPasswordOutcome := .ok "pw", dockerLoginOk := true }
      (loadCredentials ["[p]", "aws_access_key_id = AK"])
      { env := [("AWS_PROFILE", "p")], sessionFile := none } true = none := by
  exact loginToECR_account_index_out_of_range _ _ _
    { profileName := "p", accessKey := "AK" } "pw"
    (by decide) (by decide) (by decide) rfl

/-! ## UI flow orchestrator (src/ui/ui.go and the list models)

The terminal widgets (bubbles `list`, `textinput`) are external
collaborators; they are modelled as an opaque selection UI: a cursor that
the arrow keys move, `enter` selecting the item under the cursor, and a
six-rune text field that printable single-rune keys append to.  Purely
visual messages (window size, spinner and processing-message ticks) are
not modelled.  Bubble Tea commands become `Cmd` values whose delivered
message `runCmd` computes. -/

/-- Embeds `FlowStep`. -/
inductive FlowStep
  | stepProfileSelection
  | stepDriverSelection
  | stepRoleSelection
  | stepMFAInput
  | stepProcessing
  | stepDone
  | stepQuit
deriving DecidableEq, Repr

/-- The `interface{}` payload of `stepCompleteMsg`. -/
inductive StepData
  | str (s : String)
  | driver (d : AuthDriverName)
deriving DecidableEq, Repr

/-- The Bubble Tea messages the orchestrator reacts to. -/
inductive Msg
  | key (k : String)
  | stepComplete (step : FlowStep) (data : StepData)
  | errMsg (e : String)
  | doneMsg (b : Bool)
  | quitSignal
  | teaQuitMsg
deriving DecidableEq, Repr

/-- Abstract state of a bubbles selection list over payloads `α`,
covering `ProfileListModel` / `DriverListModel` / `RoleListModel`
(`choice`'s Go zero value is supplied at construction). -/
structure ListModel (α : Type) where
  items : List α
  cursor : Nat := 0
  choice : α
  selected : Bool := false
deriving DecidableEq, Repr

/-- Abstract widget behaviour shared by the three list models' `Update`:
`enter` selects the item under the cursor; `down`/`up` move the cursor
(widget-internal navigation); anything else is ignored. -/
def listModelUpdate {α : Type} (m : ListModel α) (k : String) : ListModel α :=
  if k = "enter" then
    match m.items[m.cursor]? with
    | some it => { m with choice := it, selected := true }
    | none => m
  else if k = "down" then
    { m with cursor := min (m.cursor + 1) (m.items.length - 1) }
  else if k = "up" then { m with cursor := m.cursor - 1 }
  else m

/-- Embeds `NewProfileListModel`: one item per valid profile. -/
def NewProfileListModel (cr : CredentialReader) : ListModel String :=
  { items := GetValidProfiles cr, choice := "" }

/-- Embeds `NewDriverListModel`: Manual always, 1Password only when its
CLI is installed. -/
def NewDriverListModel (onePasswordInstalled : Bool) : ListModel AuthDriverName :=
  { items := if onePasswordInstalled then [.manual, .onePassword] else [.manual]
    choice := .manual }

/-- Embeds `NewRoleListModel`: the continue-as-self entry (payload `""`)
followed by one entry per assumable role. -/
def NewRoleListModel (cr : CredentialReader) (profile : String) :
    ListModel String :=
  { items := "" :: GetAssumableRoles cr profile, choice := "" }

/-- Abstract model of the bubbles `textinput` with `CharLimit = 6`: a
single-rune key appends below the limit, other keys are ignored. -/
def mfaInputUpdate (value : String) (k : String) : String :=
  if k.data.length = 1 ∧ value.data.length < 6 then value ++ k else value

/-- Embeds the `UIManager` fields the flow reads or writes. -/
structure UIState where
  currentStep : FlowStep
  profile : String := ""
  authDriverName : AuthDriverName
  selectedRole : String := ""
  mfaCode : String := ""
  profileModel : Option (ListModel String) := none
  driverModel : Option (ListModel AuthDriverName) := none
  roleModel : Option (ListModel String) := none
  mfaInputValue : String := ""
  err : Option String := none
  success : Bool := false
  resultUser : String := ""
  resultECRAuth : Bool := false
  transientStep : String := ""
deriving DecidableEq, Repr

/-- Embeds `ui.Start`. -/
def uiStart (authDriverName : AuthDriverName) : UIState :=
  { currentStep := .stepProfileSelection, authDriverName }

/-- The deferred commands the orchestrator returns. -/
inductive Cmd
  | emit (m : Msg)
  | runAutoMFA
  | runProcess
  | teaQuitCmd
deriving DecidableEq, Repr

/-- The orchestrator's whole environment: the credential store, the
external-process outcomes, the 1Password-installed probe, the vault
one-time-password outcome and the ECR opt-in flag. -/
structure UIEnv where
  cr : CredentialReader
  penv : ProcEnv
  onePasswordInstalled : Bool
  opCodeOutcome : Except String String
  attemptECRLogin : Bool

/-- The `StepMFAInput` arm of `initCurrentStep` (split out because the
role-selection arm tail-calls it when the role list is empty). -/
def initMFAInput (u : UIState) : UIState × Option Cmd :=
  if u.authDriverName ≠ .manual then (u, some .runAutoMFA) else (u, none)

/-- Embeds `UIManager.initCurrentStep`. -/
def initCurrentStep (env : UIEnv) (u : UIState) : UIState × Option Cmd :=
  match u.currentStep with
  | .stepProfileSelection =>
    let profiles := GetValidProfiles env.cr
    let u1 := { u with profileModel := some (NewProfileListModel env.cr) }
    match profiles with
    | [p] =>
      ({ u1 with profile := p },
        some (.emit (.stepComplete .stepProfileSelection (.str p))))
    | _ => (u1, none)
  | .stepDriverSelection =>
    let dm := NewDriverListModel env.onePasswordInstalled
    ({ u with driverModel := some dm }, none)
  | .stepRoleSelection =>
    let assumableRoles := GetAssumableRoles env.cr u.profile
    if assumableRoles.length = 0 then
      initMFAInput { u with currentStep := .stepMFAInput }
    else
      ({ u with roleModel := some (NewRoleListModel env.cr u.profile) }, none)
  | .stepMFAInput => initMFAInput u
  | .stepProcessing => (u, some .runProcess)
  | _ => (u, none)

/-- Embeds `UIManager.handleCurrentStep` (key input for the current
step). -/
def handleCurrentStep (env : UIEnv) (u : UIState) (k : String) :
    UIState × Option Cmd :=
  match u.currentStep with
  | .stepProfileSelection =>
    match u.profileModel with
    | none => (u, none)
    | some m =>
      let profiles := GetValidProfiles env.cr
      let m1 := listModelUpdate m k
      let u1 := { u with profileModel := some m1 }
      if m1.selected ∨ profiles.length = 1 then
        ({ u1 with profile := m1.choice },
          some (.emit (.stepComplete .stepProfileSelection (.str m1.choice))))
      else (u1, none)
  | .stepDriverSelection =>
    match u.driverModel with
    | none => (u, none)
    | some m =>
      let m1 := listModelUpdate m k
      let u1 := { u with driverModel := some m1 }
      if m1.selected then
        ({ u1 with authDriverName := m1.choice },
          some (.emit (.stepComplete .stepDriverSelection (.driver m1.choice))))
      else (u1, none)
  | .stepRoleSelection =>
    match u.roleModel with
    | none => (u, none)
    | some m =>
      let m1 := listModelUpdate m k
      let u1 := { u with roleModel := some m1 }
      if m1.selected then
        ({ u1 with selectedRole := m1.choice },
          some (.emit (.stepComplete .stepRoleSelection (.str m1.choice))))
      else (u1, none)
  | .stepMFAInput =>
    if u.authDriverName = .manual then
      if k = "enter" then
        if ValidateMFACode u.mfaInputValue then
          ({ u with mfaCode := u.mfaInputValue },
            some (.emit (.stepComplete .stepMFAInput (.str u.mfaInputValue))))
        else
          ({ u with
              transientStep := "Invalid MFA code - must be 6 digits"
              mfaInputValue := "" }, none)
      else
        ({ u with mfaInputValue := mfaInputUpdate u.mfaInputValue k }, none)
    else (u, none)
  | _ => (u, none)

/-- Embeds `UIManager.handleStepComplete`: advance to the next step and
initialize it. -/
def handleStepComplete (env : UIEnv) (u : UIState) (step : FlowStep)
    (data : StepData) : UIState × Option Cmd :=
  match step with
  | .stepProfileSelection =>
    initCurrentStep env { u with currentStep := .stepDriverSelection }
  | .stepDriverSelection =>
    let u1 := { u with currentStep := .stepRoleSelection }
    let u2 := match data with
      | .driver d => { u1 with authDriverName := d }
      | _ => u1
    initCurrentStep env u2
  | .stepRoleSelection =>
    initCurrentStep env { u with currentStep := .stepMFAInput }
  | .stepMFAInput =>
    initCurrentStep env { u with currentStep := .stepProcessing }
  | _ => (u, none)

/-- Embeds `UIManager.Update` for the modelled messages. -/
def uiUpdate (env : UIEnv) (u : UIState) (m : Msg) : UIState × Option Cmd :=
  match m with
  | .key k =>
    if k = "ctrl+c" then (u, some (.emit .quitSignal))
    else handleCurrentStep env u k
  | .stepComplete step data => handleStepComplete env u step data
  | .errMsg e =>
    ({ u with err := some e, currentStep := .stepDone },
      some (.emit .quitSignal))
  | .doneMsg b =>
    ({ u with success := b, currentStep := .stepDone },
      some (.emit .quitSignal))
  | .quitSignal => (u, some .teaQuitCmd)
  | .teaQuitMsg => ({ u with currentStep := .stepQuit }, none)

/-- Embeds `UIManager.processAuthentication`: session-token exchange,
optional role assumption (rebinding the working profile), then
best-effort registry login.  Returns `none` when the Go code would panic
inside `LoginToECR`; otherwise the updated process state, the mutated
manager state, the message the command delivers, and the external calls
attempted, in order. -/
def processAuthentication (env : UIEnv) (os : OSState) (u : UIState) :
    Option (OSState × UIState × Msg × List ExtCall) :=
  match GetSessionToken env.penv env.cr os u.profile u.mfaCode with
  | (os1, .error e, calls1) => some (os1, u, .errMsg e, calls1)
  | (os1, .ok _, calls1) =>
    let roleStage : OSState × UIState × Option String × List ExtCall :=
      if u.selectedRole ≠ "" then
        let assumedProfileName := GetProfileByRoleArn env.cr u.selectedRole
        match AssumeRole env.penv os1 assumedProfileName u.selectedRole with
        | (os2, .error e, calls2) => (os2, u, some e, calls1 ++ calls2)
        | (os2, .ok _, calls2) =>
          (os2, { u with profile := assumedProfileName }, none, calls1 ++ calls2)
      else (os1, u, none, calls1)
    match roleStage with
    | (os2, u2, some e, calls) => some (os2, u2, .errMsg e, calls)
    | (os2, u2, none, calls) =>
      let u3 := { u2 with resultUser := u2.profile }
      match LoginToECR env.penv env.cr os2 env.attemptECRLogin with
      | none => none
      | some (.error _, calls3) =>
        some (os2, { u3 with resultECRAuth := false }, .doneMsg true,
          calls ++ calls3)
      | some (.ok _, calls3) =>
        some (os2, { u3 with resultECRAuth := true }, .doneMsg true,
          calls ++ calls3)

/-- Embeds `UIManager.tryAutoMFA` (`GetDriver` + `AWSService.GetMFACode`):
the manual driver does not yield a code, the 1Password driver requires
its CLI and then the vault outcome, unknown drivers fail. -/
def tryAutoMFA (env : UIEnv) (u : UIState) : UIState × Msg :=
  match u.authDriverName with
  | .manual => (u, .errMsg "auth driver does not yield MFA code")
  | .onePassword =>
    if env.onePasswordInstalled then
      match env.opCodeOutcome with
      | .error e => (u, .errMsg e)
      | .ok code =>
        ({ u with mfaCode := code },
          .stepComplete .stepMFAInput (.str code))
    else (u, .errMsg "1Password CLI is not installed or not available in PATH")
  | .unknown => (u, .errMsg "unknown auth driver: unknown")

/-- Run one command: the effect it performs and the message it
delivers.  `none` models a Go panic inside the command's closure. -/
def runCmd (env : UIEnv) (os : OSState) (u : UIState) :
    Cmd → Option (OSState × UIState × Msg)
  | .emit m => some (os, u, m)
  | .teaQuitCmd => some (os, u, .teaQuitMsg)
  | .runAutoMFA =>
    let r := tryAutoMFA env u
    some (os, r.1, r.2)
  | .runProcess =>
    match processAuthentication env os u with
    | none => none
    | some (os1, u1, m, _) => some (os1, u1, m)

/-- The Bubble Tea event loop: run the pending command and feed its
message back, otherwise feed the next user input; stop when the fuel is
exhausted (`none` models a panic in a command). -/
def drive (env : UIEnv) :
    Nat → OSState → UIState → Option Cmd → List Msg →
      Option (OSState × UIState)
  | 0, os, u, _, _ => some (os, u)
  | fuel + 1, os, u, some c, inputs =>
    match runCmd env os u c with
    | none => none
    | some (os1, u1, m) =>
      let r := uiUpdate env u1 m
      drive env fuel os1 r.1 r.2 inputs
  | _ + 1, os, u, none, [] => some (os, u)
  | fuel + 1, os, u, none, m :: rest =>
    let r := uiUpdate env u m
    drive env fuel os r.1 r.2 rest

/-! ### C8 -/

theorem persistCredentials_profile_env (writeErr : Option String)
    (os : OSState) (c : Credentials) (p : String) :
    getenv (persistCredentials writeErr os c p).1 "AWS_PROFILE" = p := by
  cases writeErr <;>
  · unfold persistCredentials writeToJSONFile
    simp only [getenv, setenv]
    rw [mapLookup_mapInsert_self]
    rfl

/-- C8: for a profile whose stored credential has an empty MFA serial,
the session-token request fails before any external exchange is
attempted (empty call list), and the terminal failure carries a message
that contains the profile name and the words "MFA serial"; feeding that
failure to the orchestrator lands in the Done step with the error
stored. -/
theorem missingMFASerial_terminal_failure (env : UIEnv) (os : OSState)
    (u : UIState) (c : StaticCredential)
    (hc : GetCredential env.cr u.profile = some c)
    (hmfa : c.mfaSerial = "") :
    GetSessionToken env.penv env.cr os u.profile u.mfaCode =
      (os, .error ("MFA serial not configured for profile \x27" ++
        u.profile ++ "\x27"), []) ∧
    processAuthentication env os u =
      some (os, u, .errMsg ("MFA serial not configured for profile \x27" ++
        u.profile ++ "\x27"), []) ∧
    List.IsInfix u.profile.data
      ("MFA serial not configured for profile \x27" ++
        u.profile ++ "\x27").data ∧
    List.IsInfix "MFA serial".data
      ("MFA serial not configured for profile \x27" ++
        u.profile ++ "\x27").data ∧
    (uiUpdate env u (.errMsg ("MFA serial not configured for profile \x27" ++
      u.profile ++ "\x27"))).1.currentStep = .stepDone ∧
    (uiUpdate env u (.errMsg ("MFA serial not configured for profile \x27" ++
      u.profile ++ "\x27"))).1.err =
      some ("MFA serial not configured for profile \x27" ++
        u.profile ++ "\x27") := by
  have hserial : GetMFASerial env.cr u.profile =
      .error ("MFA serial not configured for profile \x27" ++
        u.profile ++ "\x27") := by
    unfold GetMFASerial serviceGetCredentials
    rw [hc]
    simp [hmfa]
  have hsess : GetSessionToken env.penv env.cr os u.profile u.mfaCode =
      (os, .error ("MFA serial not configured for profile \x27" ++
        u.profile ++ "\x27"), []) := by
    unfold GetSessionToken
    rw [hserial]
  refine ⟨hsess, ?_, ?_, ?_, rfl, rfl⟩
  · unfold processAuthentication
    rw [hsess]
  · refine ⟨"MFA serial not configured for profile \x27".data, "\x27".data, ?_⟩
    simp [String.data_append]
  · refine ⟨[], (" not configured for profile \x27" ++ u.profile ++
      "\x27").data, ?_⟩
    simp only [List.nil_append, String.data_append, ← List.append_assoc]
    rfl

/-- A process environment with inert outcomes, for concrete witnesses. -/
def inertProcEnv : ProcEnv where
  stsOutcome := .error ""
  assumeOutcome := .error ""
  writeErr := none
  ecrPasswordOutcome := .error ""
  dockerLoginOk := false

/-- A process environment whose session-token exchange fails with
`boom`. -/
def boomProcEnv : ProcEnv where
  stsOutcome := .error "boom"
  assumeOutcome := .error ""
  writeErr := none
  ecrPasswordOutcome := .error ""
  dockerLoginOk := false

/-- A store with one profile (`nomfa`) that has keys but no MFA
serial. -/
def storeNoMfa : CredentialReader :=
  loadCredentials ["[nomfa]", "aws_access_key_id = AK",
    "aws_secret_access_key = SK"]

/-- A store with one fully valid profile `p`. -/
def storeP : CredentialReader :=
  loadCredentials ["[p]", "aws_access_key_id = AK",
    "aws_secret_access_key = SK", "mfa_serial = MS"]

/-- Orchestrator environment over `storeNoMfa` with inert outcomes. -/
def envNoMfa : UIEnv where
  cr := storeNoMfa
  penv := inertProcEnv
  onePasswordInstalled := false
  opCodeOutcome := .error ""
  attemptECRLogin := false

/-- Orchestrator environment over `storeP` whose session-token exchange
fails. -/
def envBoom : UIEnv where
  cr := storeP
  penv := boomProcEnv
  onePasswordInstalled := false
  opCodeOutcome := .error ""
  attemptECRLogin := false

/-- Manager state at the Processing step for profile `nomfa`. -/
def uiNoMfa : UIState where
  currentStep := .stepProcessing
  authDriverName := .manual
  profile := "nomfa"
  mfaCode := "123456"

/-- Manager state at the Processing step for profile `p`. -/
def uiP : UIState where
  currentStep := .stepProcessing
  authDriverName := .manual
  profile := "p"
  mfaCode := "123456"

/-- Witness for C8 at a concrete store: profile `nomfa` has keys but no
`mfa_serial`; its session-token request fails with the naming message
without attempting any external call. -/
theorem missingMFASerial_terminal_failure_witness :
    GetSessionToken inertProcEnv storeNoMfa {} "nomfa" "123456" =
      ({}, .error "MFA serial not configured for profile \x27nomfa\x27",
        []) := by
  have h := missingMFASerial_terminal_failure envNoMfa {} uiNoMfa
    { profileName := "nomfa", accessKey := "AK", accessSecret := "SK" }
    (by decide) (by decide)
  exact h.1

/-! ### C7 -/

/-- C7: Processing-stage failure propagation.
(1) A failed session-token exchange short-circuits: the only external
call is the session-token exchange (in particular no assume-role and no
registry call), and the flow lands in the Done step carrying the error.
(2) A failed assume-role exchange short-circuits: the calls are exactly
the session-token and assume-role exchanges (no registry call), and the
flow lands in Done carrying the error.
(3) A registry-login failure is non-fatal: the command still delivers
`doneMsg true`, only the ECR flag is cleared, and the flow terminates in
Done as success. -/
theorem processing_failure_short_circuit (env : UIEnv) (os : OSState)
    (u : UIState) :
    (∀ serial w, GetMFASerial env.cr u.profile = .ok serial →
      env.penv.stsOutcome = .error w →
      processAuthentication env os u =
        some (os, u, .errMsg ("failed to get AWS session token: " ++ w),
          [.stsGetSessionToken]) ∧
      (uiUpdate env u (.errMsg ("failed to get AWS session token: " ++
        w))).1.currentStep = .stepDone ∧
      (uiUpdate env u (.errMsg ("failed to get AWS session token: " ++
        w))).1.err = some ("failed to get AWS session token: " ++ w)) ∧
    (∀ serial creds w, GetMFASerial env.cr u.profile = .ok serial →
      env.penv.stsOutcome = .ok creds →
      env.penv.writeErr = none →
      u.selectedRole ≠ "" →
      env.penv.assumeOutcome = .error w →
      processAuthentication env os u =
        some ((persistCredentials none os creds u.profile).1, u,
          .errMsg ("failed to assume role " ++ u.selectedRole ++ ": " ++ w),
          [.stsGetSessionToken, .stsAssumeRole]) ∧
      (uiUpdate env u (.errMsg ("failed to assume role " ++ u.selectedRole ++
        ": " ++ w))).1.currentStep = .stepDone ∧
      (uiUpdate env u (.errMsg ("failed to assume role " ++ u.selectedRole ++
        ": " ++ w))).1.err =
        some ("failed to assume role " ++ u.selectedRole ++ ": " ++ w)) ∧
    (∀ serial creds w c, GetMFASerial env.cr u.profile = .ok serial →
      env.penv.stsOutcome = .ok creds →
      env.penv.writeErr = none →
      u.selectedRole = "" →
      env.attemptECRLogin = true →
      GetCredential env.cr u.profile = some c →
      env.penv.ecrPasswordOutcome = .error w →
      processAuthentication env os u =
        some ((persistCredentials none os creds u.profile).1,
          { u with resultUser := u.profile, resultECRAuth := false },
          .doneMsg true, [.stsGetSessionToken, .ecrGetPassword]) ∧
      (uiUpdate env
        { u with resultUser := u.profile, resultECRAuth := false }
        (.doneMsg true)).1.success = true ∧
      (uiUpdate env
        { u with resultUser := u.profile, resultECRAuth := false }
        (.doneMsg true)).1.currentStep = .stepDone) := by
  refine ⟨?_, ?_, ?_⟩
  · intro serial w hserial hsts
    have hsess : GetSessionToken env.penv env.cr os u.profile u.mfaCode =
        (os, .error ("failed to get AWS session token: " ++ w),
          [.stsGetSessionToken]) := by
      unfold GetSessionToken
      rw [hserial, hsts]
    refine ⟨?_, rfl, rfl⟩
    unfold processAuthentication
    rw [hsess]
  · intro serial creds w hserial hsts hw hrole hassume
    have hsess : GetSessionToken env.penv env.cr os u.profile u.mfaCode =
        ((persistCredentials none os creds u.profile).1, .ok true,
          [.stsGetSessionToken]) := by
      unfold GetSessionToken
      rw [hserial, hsts, hw]
      unfold persistCredentials writeToJSONFile
      rfl
    refine ⟨?_, rfl, rfl⟩
    unfold processAuthentication
    rw [hsess]
    simp only [hrole, if_true, ne_eq, not_false_eq_true, if_pos]
    unfold AssumeRole
    rw [hassume]
    rfl
  · intro serial creds w c hserial hsts hw hrole hecr hc hpw
    have hsess : GetSessionToken env.penv env.cr os u.profile u.mfaCode =
        ((persistCredentials none os creds u.profile).1, .ok true,
          [.stsGetSessionToken]) := by
      unfold GetSessionToken
      rw [hserial, hsts, hw]
      unfold persistCredentials writeToJSONFile
      rfl
    have hprofenv : getenv (persistCredentials none os creds u.profile).1
        "AWS_PROFILE" = u.profile := persistCredentials_profile_env none os
          creds u.profile
    have hecrRun : LoginToECR env.penv env.cr
        (persistCredentials none os creds u.profile).1 env.attemptECRLogin =
        some (.error ("failed to get ECR login password: " ++ w),
          [.ecrGetPassword]) := by
      unfold LoginToECR serviceGetCredentials
      rw [hecr, hprofenv, hc, hpw]
      rfl
    refine ⟨?_, rfl, rfl⟩
    unfold processAuthentication
    rw [hsess]
    simp only [hrole, ne_eq, not_true_eq_false, if_neg, if_false,
      ite_false]
    rw [hecrRun]
    rfl

/-- Witness for C7 at a concrete configuration: profile `p` is valid,
the session-token exchange fails with `boom`, and the pipeline stops
after that single call with the flow in Done carrying the error. -/
theorem processing_failure_short_circuit_witness :
    processAuthentication envBoom {} uiP =
      some ({}, uiP, .errMsg "failed to get AWS session token: boom",
        [.stsGetSessionToken]) := by
  have h := (processing_failure_short_circuit envBoom {} uiP).1 "MS" "boom"
    rfl rfl
  exact h.1

/-! ### C5 -/

/-- One keystroke message per rune (typing a code into the MFA field). -/
def charKeys (cs : List Char) : List Msg :=
  cs.map (fun c => Msg.key ⟨[c]⟩)

theorem drive_input_step (env : UIEnv) (fuel : Nat) (os : OSState)
    (u : UIState) (m : Msg) (rest : List Msg) :
    drive env (fuel + 1) os u none (m :: rest) =
      drive env fuel os (uiUpdate env u m).1 (uiUpdate env u m).2 rest := rfl

theorem drive_input_run (env : UIEnv) (fuel : Nat) (os : OSState)
    (u : UIState) (m : Msg) (rest : List Msg) (u' : UIState)
    (c' : Option Cmd) (h : uiUpdate env u m = (u', c')) :
    drive env (fuel + 1) os u none (m :: rest) =
      drive env fuel os u' c' rest := by
  rw [drive_input_step, h]

theorem singleChar_ne (c : Char) (s : String) (hs : s.data.length ≠ 1) :
    ¬((⟨[c]⟩ : String) = s) :=
  fun h => hs (h ▸ rfl)

/-- Typing `cs` into the MFA field: each keystroke appends one rune and
produces no command, so running exactly `cs.length` loop iterations
lands back in the same step with the field extended by `cs`. -/
theorem drive_mfa_typing (env : UIEnv) (os : OSState) :
    ∀ (cs : List Char) (u : UIState),
      u.currentStep = .stepMFAInput →
      u.authDriverName = .manual →
      u.mfaInputValue.data.length + cs.length ≤ 6 →
      drive env cs.length os u none (charKeys cs) =
        some (os, { u with mfaInputValue := ⟨u.mfaInputValue.data ++ cs⟩ }) := by
  intro cs
  induction cs with
  | nil =>
    intro u h1 h2 hle
    rw [List.append_nil]
    rfl
  | cons c cs ih =>
    intro u h1 h2 hle
    have hlt : u.mfaInputValue.data.length < 6 := by
      simp only [List.length_cons] at hle
      omega
    have hcc : ¬((⟨[c]⟩ : String) = "ctrl+c") :=
      singleChar_ne c "ctrl+c" (by decide)
    have hen : ¬((⟨[c]⟩ : String) = "enter") :=
      singleChar_ne c "enter" (by decide)
    have hup : uiUpdate env u (.key ⟨[c]⟩) =
        ({ u with mfaInputValue := u.mfaInputValue ++ ⟨[c]⟩ }, none) := by
      simp only [uiUpdate, if_neg hcc, handleCurrentStep, h1, h2,
        mfaInputUpdate, if_neg hen, hlt]
      simp
    have hkeys : charKeys (c :: cs) = Msg.key ⟨[c]⟩ :: charKeys cs := rfl
    rw [hkeys, List.length_cons, drive_input_run env cs.length os u _ _ _ _ hup]
    have ih2 := ih { u with mfaInputValue := u.mfaInputValue ++ ⟨[c]⟩ }
      h1 h2 (by
        show (u.mfaInputValue ++ (⟨[c]⟩ : String)).data.length +
          cs.length ≤ 6
        rw [String.data_append, List.length_append]
        have h1c : ((⟨[c]⟩ : String)).data.length = 1 := rfl
        rw [h1c]
        simp only [List.length_cons] at hle
        omega)
    rw [ih2]
    simp only [String.data_append, Option.some_inj, Prod.mk.injEq, true_and]
    congr 1
    simp

/-- C5: with exactly one valid profile, the Manual driver, no assumable
roles and a valid 6-digit code, the orchestrator reaches Processing
without any interactive profile or role prompt.  `initCurrentStep` at
ProfileSelection immediately emits the profile-completion message (no
key event); the driver step is completed by a single `enter` on the
driver list (whose first entry is Manual); RoleSelection is skipped as a
pure state transition (no role model is ever created, `u3.roleModel =
none`); the MFA step consumes only the code keystrokes and `enter`; the
completion advances to Processing and returns the processing command.
The only key messages in the whole trace are the driver-selection
`enter` and the MFA input itself. -/
theorem singleProfile_manualDriver_reaches_processing (env : UIEnv)
    (os : OSState) (d0 : AuthDriverName) (p code : String)
    (hp : GetValidProfiles env.cr = [p])
    (hr : GetAssumableRoles env.cr p = [])
    (hcode : ValidateMFACode code = true) :
    let u0 : UIState :=
      { currentStep := .stepProfileSelection, authDriverName := d0,
        profile := p, profileModel := some { items := [p], choice := "" } }
    let u1 : UIState :=
      { u0 with
        currentStep := .stepDriverSelection
        driverModel := some (NewDriverListModel env.onePasswordInstalled) }
    let dm1 : ListModel AuthDriverName :=
      { NewDriverListModel env.onePasswordInstalled with choice := .manual, selected := true }
    let u2 : UIState :=
      { u1 with authDriverName := .manual, driverModel := some dm1 }
    let u3 : UIState := { u2 with currentStep := .stepMFAInput }
    let u4 : UIState := { u3 with mfaInputValue := code }
    let u5 : UIState := { u4 with mfaCode := code }
    let u6 : UIState := { u5 with currentStep := .stepProcessing }
    initCurrentStep env (uiStart d0) =
      (u0, some (.emit (.stepComplete .stepProfileSelection (.str p)))) ∧
    uiUpdate env u0 (.stepComplete .stepProfileSelection (.str p)) =
      (u1, none) ∧
    uiUpdate env u1 (.key "enter") =
      (u2, some (.emit (.stepComplete .stepDriverSelection
        (.driver .manual)))) ∧
    uiUpdate env u2 (.stepComplete .stepDriverSelection (.driver .manual)) =
      (u3, none) ∧
    u3.roleModel = none ∧
    drive env code.data.length os u3 none (charKeys code.data) =
      some (os, u4) ∧
    uiUpdate env u4 (.key "enter") =
      (u5, some (.emit (.stepComplete .stepMFAInput (.str code)))) ∧
    uiUpdate env u5 (.stepComplete .stepMFAInput (.str code)) =
      (u6, some .runProcess) ∧
    u6.currentStep = .stepProcessing ∧ u6.profile = p ∧
    u6.mfaCode = code ∧ u6.selectedRole = "" := by
  intro u0 u1 dm1 u2 u3 u4 u5 u6
  have hhead : (NewDriverListModel
      env.onePasswordInstalled).items[(NewDriverListModel
        env.onePasswordInstalled).cursor]? = some AuthDriverName.manual := by
    unfold NewDriverListModel
    cases env.onePasswordInstalled <;> rfl
  refine ⟨?_, ?_, ?_, ?_, rfl, ?_, ?_, ?_, rfl, rfl, rfl, rfl⟩
  · simp only [initCurrentStep, uiStart, NewProfileListModel, hp]
  · rfl
  · simp only [uiUpdate, if_neg (show ¬(("enter" : String) = "ctrl+c") by
      decide), handleCurrentStep, listModelUpdate,
      if_pos (rfl : ("enter" : String) = "enter"), hhead]
    rfl
  · simp only [uiUpdate, handleStepComplete, initCurrentStep, hr,
      List.length_nil, initMFAInput]
    rfl
  · have h := drive_mfa_typing env os code.data u3 rfl rfl (by
      have hlen : code.data.length = 6 := by
        unfold ValidateMFACode at hcode
        by_cases hg : goLen code ≠ 6
        · rw [if_pos hg] at hcode; exact absurd hcode (by simp)
        · push_neg at hg
          rw [if_neg (by omega)] at hcode
          have hall : ∀ c ∈ code.data, isDigitRune c = true := by
            simpa [List.all_eq_true] using hcode
          have := goLen_of_all_digits hall
          unfold goLen at hg
          omega
      simp [hlen])
    rw [h]
    rfl
  · simp only [uiUpdate, if_neg (show ¬(("enter" : String) = "ctrl+c") by
      decide), handleCurrentStep,
      if_pos (rfl : ("enter" : String) = "enter")]
    simp only [if_true, hcode, eq_self_iff_true]
  · rfl

/-- A store with one fully valid profile `solo` and no assumable
roles. -/
def storeSolo : CredentialReader :=
  loadCredentials ["[solo]", "aws_access_key_id = AK",
    "aws_secret_access_key = SK", "mfa_serial = MS"]

/-- Orchestrator environment over `storeSolo` with inert outcomes. -/
def envSolo : UIEnv where
  cr := storeSolo
  penv := inertProcEnv
  onePasswordInstalled := false
  opCodeOutcome := .error ""
  attemptECRLogin := false

/-- Witness for C5 at a concrete store: initializing ProfileSelection
over the single valid profile `solo` immediately emits the
profile-completion message — no key event is awaited. -/
theorem singleProfile_manualDriver_reaches_processing_witness :
    initCurrentStep envSolo (uiStart .unknown) =
      ({ currentStep := .stepProfileSelection, authDriverName := .unknown,
          profile := "solo",
          profileModel := some { items := ["solo"], choice := "" } },
        some (.emit (.stepComplete .stepProfileSelection (.str "solo")))) := by
  have h := singleProfile_manualDriver_reaches_processing envSolo {} .unknown
    "solo" "123456" (by decide) (by decide) (by decide)
  exact h.1

end AwsLogin
